import Mathlib

/-!
Verification of the recursive task-tree and retry-orchestration engine of the
`recursive-coder` repository.  The Python sources `config.py`,
`recursive_agent.py` and `code_agent_integration.py` are shallowly embedded
below: pure computations become Lean functions, the mutable attempt history
becomes explicit list passing, and the filesystem interactions of the
dependency aggregator become a tree of per-node requirement files.
-/

namespace RecursiveCoder

/-! ## Configuration constants (`config.py`) -/

/-- Timeout setting `DEFAULT_TIMEOUT = 300` from `config.py`. -/
def DEFAULT_TIMEOUT : Int := 300

/-- Timeout setting `MIN_TIMEOUT = 30` from `config.py`. -/
def MIN_TIMEOUT : Int := 30

/-- Timeout setting `MAX_TIMEOUT = 3600` from `config.py`. -/
def MAX_TIMEOUT : Int := 3600

/-- Agent setting `DEFAULT_RECURSION_DEPTH = 5` from `config.py`. -/
def DEFAULT_RECURSION_DEPTH : Int := 5

/-- Agent setting `DEFAULT_MAX_RETRIES = 3` from `config.py`. -/
def DEFAULT_MAX_RETRIES : Int := 3

/-- Testing setting `PYTEST_TIMEOUT = 60` from `config.py` (per-test timeout). -/
def PYTEST_TIMEOUT : Int := 60

/-! ## RecursiveAgent (`recursive_agent.py`) -/

/-- The fields of `RecursiveAgent` relevant to tree and timeout semantics. -/
structure RecursiveAgent where
  agent_name : String
  timeout_seconds : Int
  max_retries : Int
  recursion_depth : Int
  max_recursion_depth : Int
deriving DecidableEq, Repr

/-- The clamp applied in `RecursiveAgent.__init__`:
`self.timeout_seconds = max(config.MIN_TIMEOUT, min(timeout_seconds, config.MAX_TIMEOUT))`. -/
def clampTimeout (timeout_seconds : Int) : Int :=
  max MIN_TIMEOUT (min timeout_seconds MAX_TIMEOUT)

/-- `RecursiveAgent.__init__` (`recursive_agent.py` lines 19-56), restricted to
the modelled fields; only `timeout_seconds` is transformed (clamped). -/
def RecursiveAgent.init (agent_name : String) (timeout_seconds : Int)
    (max_retries : Int) (recursion_depth : Int) (max_recursion_depth : Int) :
    RecursiveAgent :=
  { agent_name := agent_name
    timeout_seconds := clampTimeout timeout_seconds
    max_retries := max_retries
    recursion_depth := recursion_depth
    max_recursion_depth := max_recursion_depth }

/-- Name sanitization in `create_child_agent`:
`re.sub(r"[^a-z0-9_]", "_", child_name.lower())`. -/
def sanitizeName (child_name : String) : String :=
  ⟨child_name.toLower.data.map fun c =>
    if ('a' ≤ c ∧ c ≤ 'z') ∨ ('0' ≤ c ∧ c ≤ '9') ∨ c = '_' then c else '_'⟩

/-- `child_folder_name = f"{config.CHILD_FOLDER_PREFIX}{safe_name}"` with the
child-namespace tag `"task_"` from `config.py`. -/
def childFolderName (child_name : String) : String :=
  "task_" ++ sanitizeName child_name

/-- The child timeout computed in `create_child_agent` (lines 156-159):
`child_timeout = expected_timeout or max(self.timeout_seconds // 2, config.MIN_TIMEOUT)`.
Python `or` takes the right operand when `expected_timeout` is `None` or `0`
(both falsy); `//` is floor division. -/
def childTimeout (parent : RecursiveAgent) (expected_timeout : Option Int) : Int :=
  match expected_timeout with
  | some t =>
      if t = 0 then max (Int.fdiv parent.timeout_seconds 2) MIN_TIMEOUT else t
  | none => max (Int.fdiv parent.timeout_seconds 2) MIN_TIMEOUT

/-- `RecursiveAgent.create_child_agent` (`recursive_agent.py` lines 133-199).
The function unconditionally constructs and registers the child agent with
`recursion_depth = self.recursion_depth + 1`; there is no depth test and no
failure path in the source. -/
def create_child_agent (parent : RecursiveAgent) (child_name : String)
    (expected_timeout : Option Int) : RecursiveAgent :=
  RecursiveAgent.init
    (parent.agent_name ++ "::" ++ childFolderName child_name)
    (childTimeout parent expected_timeout)
    parent.max_retries
    (parent.recursion_depth + 1)
    parent.max_recursion_depth

/-- Result record of `RecursiveAgent.decompose_task` (lines 95-118). -/
structure DecomposeResult where
  recursion_depth : Int
  should_decompose : Bool
  timeout_for_children : Int
deriving DecidableEq, Repr

/-- `RecursiveAgent.decompose_task` (lines 95-118): the only place the source
compares the current depth against `max_recursion_depth`, and only as an
advisory flag. -/
def decompose_task (a : RecursiveAgent) : DecomposeResult :=
  { recursion_depth := a.recursion_depth
    should_decompose := decide (a.recursion_depth < a.max_recursion_depth)
    timeout_for_children := max (Int.fdiv a.timeout_seconds 2) MIN_TIMEOUT }

/-- Modelled from the spec: the `createChild` refusal described in the spec
("fails with `DepthExceeded` if `parent.depth + 1 > maxDepth`"), which is
absent from `src/recursive_agent.py`.  Used only to compare the spec's
behaviour with the source's. -/
def create_child_agent_spec (parent : RecursiveAgent) (child_name : String)
    (expected_timeout : Option Int) : Except Unit RecursiveAgent :=
  if parent.recursion_depth + 1 > parent.max_recursion_depth then
    Except.error ()
  else
    Except.ok (create_child_agent parent child_name expected_timeout)

/-- Iterated child creation along one branch with no timeout override. -/
def descendantChain (root : RecursiveAgent) (child_name : String) : Nat → RecursiveAgent
  | 0 => root
  | n + 1 => create_child_agent (descendantChain root child_name n) child_name none

/-! ## Sandboxed test runner `RecursiveAgent.run_tests` (`recursive_agent.py` lines 336-411) -/

/-- Structured result dictionary returned by `run_tests`; fields that a given
branch does not set are `none`. -/
structure TestResult where
  success : Bool
  tests_found : Bool
  stdout : Option String := none
  stderr : Option String := none
  returncode : Option Int := none
  message : Option String := none
deriving DecidableEq, Repr

/-- Environment of one `run_tests` call: whether `test_solution.py` exists,
whether the runner raises internally (e.g. the spawn fails), and otherwise the
wall-clock duration and captured output of the spawned pytest process. -/
structure PytestEnv where
  test_file_exists : Bool
  spawn_error : Option String
  duration : Int
  proc_stdout : String
  proc_stderr : String
  returncode : Int
deriving DecidableEq, Repr

/-- The pytest command line built in `run_tests` (lines 355-371):
`[sys.executable, "-m", "pytest", test_file, "-v", f"--timeout={config.PYTEST_TIMEOUT}", "--tb=short"]`,
extended with the json-report options when `pytest_jsonreport` is available.
`config.PYTEST_TIMEOUT` enters only here, as a per-test pytest flag. -/
def pytest_args (executable test_file : String) (json_report : Bool)
    (report_file : String) : List String :=
  let base := [executable, "-m", "pytest", test_file, "-v",
    "--timeout=" ++ toString PYTEST_TIMEOUT, "--tb=short"]
  if json_report then
    base ++ ["--json-report", "--json-report-file=" ++ report_file]
  else base

/-- `RecursiveAgent.run_tests`.  The subprocess is run with
`timeout=self.timeout_seconds` (line 378), so the spawned process is killed
(`subprocess.TimeoutExpired`) exactly when its duration exceeds
`timeout_seconds`; `subprocess.TimeoutExpired` and any other exception are
caught and turned into failure dictionaries (lines 396-411). -/
def run_tests (a : RecursiveAgent) (env : PytestEnv) : TestResult :=
  if env.test_file_exists = false then
    { success := true, tests_found := false, message := some "No test file found" }
  else
    match env.spawn_error with
    | some e =>
        { success := false, tests_found := true,
          message := some ("Error running tests: " ++ e), stderr := some e }
    | none =>
        if a.timeout_seconds < env.duration then
          { success := false, tests_found := true,
            message := some "Testing timed out", stderr := some "Pytest timed out" }
        else
          { success := decide (env.returncode = 0), tests_found := true,
            stdout := some env.proc_stdout, stderr := some env.proc_stderr,
            returncode := some env.returncode }

/-! ## String utilities modelling Python built-ins -/

/-- Whitespace recognized by Python `str.strip()`. -/
def isPySpace (c : Char) : Bool :=
  c = ' ' || c = '\t' || c = '\n' || c = '\r' || c = '\x0b' || c = '\x0c'

/-- Python `str.strip()` on the underlying character list: remove leading and
trailing whitespace. -/
def stripChars (l : List Char) : List Char :=
  (l.dropWhile isPySpace).rdropWhile isPySpace

/-- Python `str.strip()`. -/
def pystrip (s : String) : String := ⟨stripChars s.data⟩

/-- Python `str.startswith("#")`. -/
def startsWithHash (s : String) : Bool :=
  match s.data with
  | '#' :: _ => true
  | _ => false

/-! ## Attempt history (`code_agent_integration.py` lines 352-382) -/

/-- One element of `RecursiveCodeAgent.attempt_history[managed_name]`
(the `timestamp` field, real wall-clock time, is not modelled; recording
order is the list order). -/
structure AttemptRecord where
  attempt_number : Nat
  prompt_used : String
  code_produced : Option String
  test_output : Option String
  test_success : Bool
  error_summary : String
deriving DecidableEq, Repr

/-- `RecursiveCodeAgent._record_attempt`: appends one truncated record with
`attempt_number = len(attempts) + 1`.  `test_success` is the caller's
`test_results.get("success", False)`; Python's `x[:n] if x else d`
truncation-with-default is spelled out per field. -/
def _record_attempt (attempts : List AttemptRecord) (prompt_used : String)
    (code_produced : Option String) (test_output : Option String)
    (test_success : Bool) (error_summary : String) : List AttemptRecord :=
  attempts ++
    [{ attempt_number := attempts.length + 1
       prompt_used := if prompt_used.isEmpty then "" else prompt_used.take 3000
       code_produced := match code_produced with
         | some c => if c.isEmpty then none else some (c.take 5000)
         | none => none
       test_output := match test_output with
         | some t => if t.isEmpty then none else some (t.take 3000)
         | none => none
       test_success := test_success
       error_summary := if error_summary.isEmpty then ""
         else error_summary.take 2000 }]

/-! ## Managed-agent runs and the retry orchestrator
(`code_agent_integration.py` lines 243-350 and 452-606) -/

/-- What one invocation of the external worker (`managed_agent.run`) does:
either it raises, or it completes leaving the child workspace in some state —
`solution` is the content of `solution.py` if the worker wrote it, `testEnv`
describes the subsequent `run_tests` call, `error_log` the child's error
stream. -/
inductive WorkerBehavior where
  | throws (msg : String)
  | completes (solution : Option String) (testEnv : PytestEnv) (error_log : String)

/-- The `full_task` construction of `run_managed_agent` (lines 286-289):
`prompt_text + "\n\n" + task.strip()` when both are non-empty, else
`prompt_text or task`. -/
def full_task_of (prompt_text task : String) : String :=
  if prompt_text.isEmpty = false ∧ (pystrip task).isEmpty = false then
    prompt_text ++ "\n\n" ++ pystrip task
  else if prompt_text.isEmpty = false then prompt_text
  else task

/-- `RecursiveCodeAgent.run_managed_agent` (lines 243-350) for a resolved,
initialized child (the only way `retry_child_agent` reaches it): the worker
invocation may throw (caught, recorded, not propagated), the solution file may
be missing after the run (recorded failure), or validation runs and the
attempt is recorded with the test outcome.  `promptFile` is the raw content of
the child's `prompt.txt` when it exists.  Returns the reported success flag
and the updated attempt history. -/
def run_managed_agent (child : RecursiveAgent) (promptFile : Option String)
    (task : String) (b : WorkerBehavior) (attempts : List AttemptRecord) :
    Bool × List AttemptRecord :=
  let prompt_text := match promptFile with
    | some raw => pystrip raw
    | none => ""
  let full_task := full_task_of prompt_text task
  match b with
  | .throws msg =>
      (false, _record_attempt attempts full_task none none false msg)
  | .completes none _ _ =>
      (false, _record_attempt attempts full_task none none false
        "No solution.py written")
  | .completes (some code) tenv error_log =>
      let tr := run_tests child tenv
      (tr.success,
        _record_attempt attempts full_task (some code)
          (some ((tr.stdout.getD "") ++ "\n" ++ (tr.stderr.getD "")))
          tr.success error_log)

/-- `"PASSED" if flag else "FAILED"`. -/
def statusTag (b : Bool) : String := if b then "PASSED" else "FAILED"

/-- One line of the all-previous-attempts summary (lines 543-550). -/
def attemptSummaryLine (pa : AttemptRecord) : String :=
  let err_snippet := pa.error_summary.take 200
  "  - Attempt #" ++ toString pa.attempt_number ++ ": " ++ statusTag pa.test_success
    ++ (if err_snippet.isEmpty then "" else " — " ++ err_snippet)

/-- The augmented-prompt composition of `retry_child_agent` (lines 505-564):
original task, last-attempt block, multi-attempt summary, then the revised
instructions with the fixed submit directive, joined by blank lines. -/
def build_augmented_task (original_prompt : Option String)
    (prev_attempts : List AttemptRecord) (revised_instructions : String) :
    String :=
  let parts1 : List String := match original_prompt with
    | some op => ["## Original Task\n" ++ op]
    | none => []
  let parts2 : List String := match prev_attempts.getLast? with
    | none => []
    | some last =>
        ["## Previous Attempt #" ++ toString last.attempt_number ++ " ("
          ++ statusTag last.test_success ++ ")"]
        ++ (match last.code_produced with
            | some c =>
                if c.isEmpty then [] else
                  ["### Code You Produced\n```python\n" ++ c.take 3000 ++ "\n```"]
            | none => [])
        ++ (match last.test_output with
            | some t =>
                if t.isEmpty = false ∧ last.test_success = false then
                  ["### Test Output (FAILURES)\n```\n" ++ t.take 2000 ++ "\n```"]
                else []
            | none => [])
        ++ (if last.error_summary.isEmpty then [] else
            ["### Errors\n```\n" ++ last.error_summary.take 1000 ++ "\n```"])
  let parts3 : List String :=
    if prev_attempts.length > 1 then
      ["## All Previous Attempts (" ++ toString prev_attempts.length ++ " total)\n"
        ++ String.intercalate "\n" (prev_attempts.map attemptSummaryLine)]
    else []
  let parts4 : List String :=
    ["## Revised Instructions From Parent Agent\n" ++ revised_instructions
      ++ "\n\nFix the issues described above. Generate corrected code and tests. "
      ++ "Call submit_solution(code, test_code) when done."]
  String.intercalate "\n\n" (parts1 ++ parts2 ++ parts3 ++ parts4)

/-- Outcome record of `retry_child_agent`. -/
structure RetryOutcome where
  success : Bool
  attempts_used : Nat
  total_attempts : Nat
deriving DecidableEq, Repr

/-- The `for attempt_num in range(1, max_retries + 1)` loop of
`retry_child_agent` (lines 496-606), with `fuel` the remaining iterations and
`behaviors` giving the worker's behaviour on each attempt number.  Each
iteration composes the augmented task from the current history, invokes the
worker through `run_managed_agent` (recording exactly one attempt), and stops
on success or when the budget is exhausted. -/
def retry_loop (child : RecursiveAgent) (promptFile : Option String)
    (revised_instructions : String) (behaviors : Nat → WorkerBehavior)
    (attempt_num : Nat) :
    Nat → List AttemptRecord → RetryOutcome × List AttemptRecord
  | 0, attempts =>
      ({ success := false, attempts_used := attempt_num - 1,
         total_attempts := attempts.length }, attempts)
  | fuel + 1, attempts =>
      let original_prompt := promptFile.map pystrip
      let augmented := build_augmented_task original_prompt attempts
        revised_instructions
      let step := run_managed_agent child promptFile augmented
        (behaviors attempt_num) attempts
      if step.1 then
        ({ success := true, attempts_used := attempt_num,
           total_attempts := step.2.length }, step.2)
      else
        retry_loop child promptFile revised_instructions behaviors
          (attempt_num + 1) fuel step.2

/-- `RecursiveCodeAgent.retry_child_agent` for a resolved, initialized child:
runs the bounded loop starting at attempt 1 with `max_retries` iterations
available. -/
def retry_child_agent (child : RecursiveAgent) (promptFile : Option String)
    (revised_instructions : String) (behaviors : Nat → WorkerBehavior)
    (max_retries : Nat) (attempts : List AttemptRecord) :
    RetryOutcome × List AttemptRecord :=
  retry_loop child promptFile revised_instructions behaviors 1 max_retries
    attempts

/-- The `attempt_number` column of a history. -/
def attemptNumbers (h : List AttemptRecord) : List Nat :=
  h.map fun r => r.attempt_number

/-- A history whose attempt numbers are exactly `1, 2, ..., length`. -/
def WellNumbered (h : List AttemptRecord) : Prop :=
  attemptNumbers h = List.range' 1 h.length

/-! ## Dependency aggregation (`recursive_agent.py` lines 201-279)

The filesystem relevant to the aggregator is a tree of agent directories,
each holding a `requirements.txt` modelled as its list of raw lines (a
missing file is the empty list, which reads back as no requirements, exactly
as in `_read_requirements_file`). -/

/-- An agent directory: its own `requirements.txt` lines and its
subdirectories in the order `iterdir` yields them. -/
inductive AgentTree where
  | mk (reqFile : List String) (children : List AgentTree)

/-- Lines of this directory's `requirements.txt`. -/
def AgentTree.reqFile : AgentTree → List String
  | .mk r _ => r

/-- Subdirectories of this directory. -/
def AgentTree.children : AgentTree → List AgentTree
  | .mk _ c => c

/-- `RecursiveAgent._read_requirements_file` (lines 201-221): keep each
stripped line that is non-empty and not a `#` comment. -/
def _read_requirements_file : List String → List String
  | [] => []
  | line :: rest =>
      let stripped := pystrip line
      if stripped.isEmpty || startsWithHash stripped then
        _read_requirements_file rest
      else
        stripped :: _read_requirements_file rest

/-- The `seen`-set/append pair of the collection loops: add `req` unless
already present. -/
def addUnique (acc : List String) (req : String) : List String :=
  if req ∈ acc then acc else acc ++ [req]

/-- `RecursiveAgent.collect_child_requirements` (lines 223-245): iterate the
node's immediate subdirectories, read each one's `requirements.txt`, and keep
first-seen unique lines. -/
def collect_child_requirements (t : AgentTree) : List String :=
  t.children.foldl
    (fun acc c => (_read_requirements_file c.reqFile).foldl addUnique acc) []

/-- `RecursiveAgent.merge_child_requirements` (lines 247-279): optionally
seed with the node's own requirements, fold in the collected child
requirements, and write the merged list back to the node's own
`requirements.txt` only when non-empty.  Returns the merged list and the
updated tree. -/
def merge_child_requirements (t : AgentTree) (include_self : Bool) :
    List String × AgentTree :=
  let selfMerged := if include_self
    then (_read_requirements_file t.reqFile).foldl addUnique []
    else []
  let merged := (collect_child_requirements t).foldl addUnique selfMerged
  if merged.isEmpty then (merged, t)
  else (merged, AgentTree.mk merged t.children)

/-- First-seen deduplication, written as plain recursion: keep the head and
drop its later duplicates. -/
def firstSeen : List String → List String
  | [] => []
  | x :: xs => x :: firstSeen (xs.filter fun y => decide (y ≠ x))
termination_by l => l.length
decreasing_by
  simp only [List.length_cons]
  exact Nat.lt_succ_of_le (List.length_filter_le _ _)

mutual

/-- Modelled from the spec: the dependency lines of all strict descendants
of a node, in a depth-first traversal of children in creation order — the
reading discipline the spec ascribes to `mergeSubtree`, which the source does
not implement (it reads immediate children only). -/
def subtreeReqLines : AgentTree → List String
  | .mk _ children => subtreeReqLinesAux children

/-- Modelled from the spec: depth-first traversal helper over a child list. -/
def subtreeReqLinesAux : List AgentTree → List String
  | [] => []
  | c :: rest =>
      _read_requirements_file c.reqFile ++ subtreeReqLines c
        ++ subtreeReqLinesAux rest

end

/-- Modelled from the spec: `mergeSubtree(node, includeSelf)` as §4.5
describes it — first-seen deduplication over the node's own list (when
`includeSelf`) followed by every descendant's dependency lines in depth-first
order. -/
def mergeSubtreeSpec (t : AgentTree) (includeSelf : Bool) : List String :=
  firstSeen ((if includeSelf then _read_requirements_file t.reqFile else [])
    ++ subtreeReqLines t)

/-- The merged list computed by `merge_child_requirements` (its first
component in both write-back branches). -/
def mergedList (t : AgentTree) (b : Bool) : List String :=
  (collect_child_requirements t).foldl addUnique
    (if b then (_read_requirements_file t.reqFile).foldl addUnique [] else [])


/-! ## Theorems: depth and timeout propagation (claims C1, C3, C10) -/

/-- Helper: clamping after raising to the minimum equals plain clamping. -/
theorem clampTimeout_max_min (x : Int) :
    clampTimeout (max x MIN_TIMEOUT) = clampTimeout x := by
  simp only [clampTimeout, MIN_TIMEOUT, MAX_TIMEOUT, min_def, max_def]
  split_ifs <;> omega

/-- Claim C1 counterexample: a parent at `recursion_depth = max_recursion_depth = 0`
calls `create_child_agent`; the claim says the call must be refused with
`DepthExceeded`, but the source creates and returns the child, whose depth `1`
exceeds `max_recursion_depth = 0`, so the claimed invariant
`depth ≤ maxDepth` fails for a node of the tree.  The spec-modelled refusal
(`create_child_agent_spec`) would have rejected this very call. -/
theorem create_child_depth_counterexample :
    (create_child_agent
        (RecursiveAgent.init "root" DEFAULT_TIMEOUT DEFAULT_MAX_RETRIES 0 0)
        "sub" none).recursion_depth >
      (create_child_agent
        (RecursiveAgent.init "root" DEFAULT_TIMEOUT DEFAULT_MAX_RETRIES 0 0)
        "sub" none).max_recursion_depth ∧
    create_child_agent_spec
        (RecursiveAgent.init "root" DEFAULT_TIMEOUT DEFAULT_MAX_RETRIES 0 0)
        "sub" none = Except.error () := by
  constructor
  · decide
  · rfl

/-- Claim C1 (amended): `create_child_agent` performs no depth check at all.
For every parent it creates and returns a child with
`recursion_depth = parent.recursion_depth + 1` and the parent's
`max_recursion_depth`, even beyond the maximum; iterating child creation grows
the depth without bound.  The only depth comparison in the source is the
advisory `should_decompose` flag of `decompose_task`. -/
theorem create_child_no_depth_check (p : RecursiveAgent) (name : String)
    (eto : Option Int) :
    (create_child_agent p name eto).recursion_depth = p.recursion_depth + 1 ∧
    (create_child_agent p name eto).max_recursion_depth = p.max_recursion_depth ∧
    (decompose_task p).should_decompose
      = decide (p.recursion_depth < p.max_recursion_depth) ∧
    ∀ k : Nat, (descendantChain p name k).recursion_depth
      = p.recursion_depth + (k : Int) := by
  refine ⟨rfl, rfl, rfl, ?_⟩
  intro k
  induction k with
  | zero => simp [descendantChain]
  | succ n ih =>
      simp only [descendantChain, create_child_agent, RecursiveAgent.init] at ih ⊢
      push_cast
      omega

/-- Claim C3: a child created with an in-range timeout override `t` gets
exactly `t`; with no override it gets `clamp(parent.timeout // 2, MIN, MAX)`;
with the defaults (root timeout 300, `MIN_TIMEOUT = 30`) a child gets 150 and
a grandchild 75. -/
theorem child_timeout_budget (p : RecursiveAgent) (name : String) (t : Int)
    (h1 : MIN_TIMEOUT ≤ t) (h2 : t ≤ MAX_TIMEOUT) :
    (create_child_agent p name (some t)).timeout_seconds = t ∧
    (create_child_agent p name none).timeout_seconds
      = clampTimeout (Int.fdiv p.timeout_seconds 2) ∧
    (create_child_agent
        (RecursiveAgent.init "root" 300 DEFAULT_MAX_RETRIES 0 5)
        "c" none).timeout_seconds = 150 ∧
    (create_child_agent
        (create_child_agent
          (RecursiveAgent.init "root" 300 DEFAULT_MAX_RETRIES 0 5)
          "c" none)
        "c" none).timeout_seconds = 75 := by
  refine ⟨?_, ?_, ?_, ?_⟩
  · have ht : t ≠ 0 := by
      simp only [MIN_TIMEOUT] at h1
      omega
    simp only [create_child_agent, RecursiveAgent.init, childTimeout, if_neg ht,
      clampTimeout, MIN_TIMEOUT, MAX_TIMEOUT] at h1 h2 ⊢
    simp only [min_def, max_def]
    split_ifs <;> omega
  · simpa [create_child_agent, RecursiveAgent.init, childTimeout] using
      clampTimeout_max_min (Int.fdiv p.timeout_seconds 2)
  · decide
  · decide

/-- Claim C3 witness: override 100 at a concrete root. -/
theorem child_timeout_budget_witness :
    (create_child_agent
        (RecursiveAgent.init "root" 300 DEFAULT_MAX_RETRIES 0 5)
        "c" (some 100)).timeout_seconds = 100 :=
  (child_timeout_budget
    (RecursiveAgent.init "root" 300 DEFAULT_MAX_RETRIES 0 5) "c" 100
    (by decide) (by decide)).1

/-- Claim C10: an `expected_timeout` of `0` is falsy under Python `or`, so it
is treated exactly like an absent override: the child is identical to one
created with no override, the computed timeout is
`max(parent.timeout_seconds // 2, MIN_TIMEOUT)`, and in particular a root with
timeout 300 yields 150 — not the `clampTimeout 0 = 30` that a genuine
override of `0` would produce. -/
theorem zero_timeout_override_is_absent (p : RecursiveAgent) (name : String) :
    create_child_agent p name (some 0) = create_child_agent p name none ∧
    childTimeout p (some 0)
      = max (Int.fdiv p.timeout_seconds 2) MIN_TIMEOUT ∧
    (create_child_agent
        (RecursiveAgent.init "root" 300 DEFAULT_MAX_RETRIES 0 5)
        "c" (some 0)).timeout_seconds = 150 ∧
    clampTimeout 0 = 30 := by
  refine ⟨rfl, rfl, ?_, by decide⟩
  decide

/-! ## Theorems: validation runner (claims C4, C5, C6) -/

/-- Claim C4 counterexample: with a node whose budget is 300 seconds and
`PYTEST_TIMEOUT = 60`, a pytest process running 120 seconds exceeds
`min(budget, PYTEST_TIMEOUT) = 60`, yet `run_tests` lets it finish and
reports success: the hard wall-clock timeout is larger than the claimed
`min(node.timeoutBudget, GLOBAL_TEST_TIMEOUT)`. -/
theorem run_tests_hard_timeout_counterexample :
    min (RecursiveAgent.init "root" 300 DEFAULT_MAX_RETRIES 0 5).timeout_seconds
        PYTEST_TIMEOUT <
      (120 : Int) ∧
    run_tests (RecursiveAgent.init "root" 300 DEFAULT_MAX_RETRIES 0 5)
        { test_file_exists := true, spawn_error := none, duration := 120,
          proc_stdout := "ok", proc_stderr := "", returncode := 0 }
      = { success := true, tests_found := true, stdout := some "ok",
          stderr := some "", returncode := some 0 } := by
  constructor
  · decide
  · rfl

/-- Claim C4 (amended): the hard wall-clock timeout of the spawned test
process equals `node.timeout_seconds` exactly — the run is killed iff its
duration exceeds the node's own budget — while `PYTEST_TIMEOUT` is passed to
pytest only as the per-test `--timeout` flag of the command line. -/
theorem run_tests_hard_timeout_is_budget (a : RecursiveAgent) (env : PytestEnv)
    (hex : env.test_file_exists = true) (hsp : env.spawn_error = none) :
    ((run_tests a env).message = some "Testing timed out" ↔
      a.timeout_seconds < env.duration) ∧
    ∀ exe tf jr rf, ("--timeout=" ++ toString PYTEST_TIMEOUT)
      ∈ pytest_args exe tf jr rf := by
  constructor
  · simp only [run_tests, hex, hsp]
    by_cases h : a.timeout_seconds < env.duration
    · simp [h]
    · simp [h]
  · intro exe tf jr rf
    simp only [pytest_args]
    by_cases jr2 : jr = true
    · simp [jr2]
    · simp at jr2
      simp [jr2]

/-- Claim C4 amended-theorem witness at a concrete agent and environment. -/
theorem run_tests_hard_timeout_is_budget_witness :
    ((run_tests (RecursiveAgent.init "root" 300 DEFAULT_MAX_RETRIES 0 5)
        { test_file_exists := true, spawn_error := none, duration := 301,
          proc_stdout := "", proc_stderr := "", returncode := 1 }).message
      = some "Testing timed out" ↔
      (RecursiveAgent.init "root" 300 DEFAULT_MAX_RETRIES 0 5).timeout_seconds
        < 301) ∧
    ∀ exe tf jr rf, ("--timeout=" ++ toString PYTEST_TIMEOUT)
      ∈ pytest_args exe tf jr rf :=
  run_tests_hard_timeout_is_budget
    (RecursiveAgent.init "root" 300 DEFAULT_MAX_RETRIES 0 5)
    { test_file_exists := true, spawn_error := none, duration := 301,
      proc_stdout := "", proc_stderr := "", returncode := 1 }
    rfl rfl

/-- Claim C5: the runner returns a structured outcome in every case and never
raises.  A timeout of the spawned process yields a failed outcome with the
timed-out message in `stderr`, and a runner-internal error yields a failed
outcome whose `stderr` holds the error message. -/
theorem run_tests_never_raises (a : RecursiveAgent) (env : PytestEnv) :
    (∀ e, env.test_file_exists = true → env.spawn_error = some e →
      run_tests a env
        = { success := false, tests_found := true,
            message := some ("Error running tests: " ++ e), stderr := some e }) ∧
    (env.test_file_exists = true → env.spawn_error = none →
      a.timeout_seconds < env.duration →
      run_tests a env
        = { success := false, tests_found := true,
            message := some "Testing timed out",
            stderr := some "Pytest timed out" }) ∧
    ((run_tests a env).success = true ∨ (run_tests a env).success = false) := by
  refine ⟨?_, ?_, ?_⟩
  · intro e hex hsp
    simp [run_tests, hex, hsp]
  · intro hex hsp hdur
    simp [run_tests, hex, hsp, hdur]
  · rcases h : (run_tests a env).success with _ | _
    · right; rfl
    · left; rfl

/-- Claim C5 witness: concrete spawn-failure and timeout environments. -/
theorem run_tests_never_raises_witness :
    run_tests (RecursiveAgent.init "root" 300 DEFAULT_MAX_RETRIES 0 5)
        { test_file_exists := true, spawn_error := some "boom", duration := 0,
          proc_stdout := "", proc_stderr := "", returncode := 0 }
      = { success := false, tests_found := true,
          message := some ("Error running tests: " ++ "boom"),
          stderr := some "boom" } ∧
    run_tests (RecursiveAgent.init "root" 300 DEFAULT_MAX_RETRIES 0 5)
        { test_file_exists := true, spawn_error := none, duration := 9999,
          proc_stdout := "", proc_stderr := "", returncode := 0 }
      = { success := false, tests_found := true,
          message := some "Testing timed out",
          stderr := some "Pytest timed out" } :=
  ⟨(run_tests_never_raises (RecursiveAgent.init "root" 300 DEFAULT_MAX_RETRIES 0 5)
      { test_file_exists := true, spawn_error := some "boom", duration := 0,
        proc_stdout := "", proc_stderr := "", returncode := 0 }).1
      "boom" rfl rfl,
   (run_tests_never_raises (RecursiveAgent.init "root" 300 DEFAULT_MAX_RETRIES 0 5)
      { test_file_exists := true, spawn_error := none, duration := 9999,
        proc_stdout := "", proc_stderr := "", returncode := 0 }).2.1
      rfl rfl (by decide)⟩

/-- Claim C6: with no test artifact the runner reports success with the
tests-found flag false (plus the message set by the source), for every node
and every environment state. -/
theorem run_tests_no_test_file (a : RecursiveAgent) (env : PytestEnv)
    (h : env.test_file_exists = false) :
    run_tests a env
      = { success := true, tests_found := false,
          message := some "No test file found" } := by
  simp [run_tests, h]

/-- Claim C6 witness at a concrete agent and environment. -/
theorem run_tests_no_test_file_witness :
    run_tests (RecursiveAgent.init "root" 300 DEFAULT_MAX_RETRIES 0 5)
        { test_file_exists := false, spawn_error := none, duration := 0,
          proc_stdout := "", proc_stderr := "", returncode := 0 }
      = { success := true, tests_found := false,
          message := some "No test file found" } :=
  run_tests_no_test_file
    (RecursiveAgent.init "root" 300 DEFAULT_MAX_RETRIES 0 5)
    { test_file_exists := false, spawn_error := none, duration := 0,
      proc_stdout := "", proc_stderr := "", returncode := 0 }
    rfl

/-! ## Theorems: retry bound and attempt recording (claims C2, C9) -/

/-- Helper: every path of `run_managed_agent` appends exactly one attempt
record, numbered `len + 1`. -/
theorem run_managed_agent_appends (child : RecursiveAgent)
    (pf : Option String) (task : String) (b : WorkerBehavior)
    (h : List AttemptRecord) :
    ∃ r, (run_managed_agent child pf task b h).2 = h ++ [r] ∧
      r.attempt_number = h.length + 1 := by
  cases b with
  | throws msg => exact ⟨_, rfl, rfl⟩
  | completes sol tenv el =>
      cases sol with
      | none => exact ⟨_, rfl, rfl⟩
      | some code => exact ⟨_, rfl, rfl⟩

/-- Helper: the retry loop only appends, adds at most `fuel` records, and
reports `total_attempts` equal to the final history length. -/
theorem retry_loop_spec (child : RecursiveAgent) (pf : Option String)
    (rev : String) (behaviors : Nat → WorkerBehavior) :
    ∀ (fuel an : Nat) (h : List AttemptRecord),
      ∃ t, (retry_loop child pf rev behaviors an fuel h).2 = h ++ t ∧
        t.length ≤ fuel ∧
        (retry_loop child pf rev behaviors an fuel h).1.total_attempts
          = h.length + t.length := by
  intro fuel
  induction fuel with
  | zero =>
      intro an h
      exact ⟨[], by simp [retry_loop]⟩
  | succ f ih =>
      intro an h
      obtain ⟨r, hr, _⟩ := run_managed_agent_appends child pf
        (build_augmented_task (pf.map pystrip) h rev) (behaviors an) h
      by_cases hs : (run_managed_agent child pf
          (build_augmented_task (pf.map pystrip) h rev) (behaviors an) h).1
        = true
      · refine ⟨[r], ?_, ?_, ?_⟩ <;>
          simp [retry_loop, hs, hr]
      · obtain ⟨t2, ht2, hlen2, htot2⟩ := ih (an + 1)
          ((run_managed_agent child pf
            (build_augmented_task (pf.map pystrip) h rev) (behaviors an) h).2)
        refine ⟨r :: t2, ?_, ?_, ?_⟩
        · simp only [retry_loop]
          rw [if_neg hs, ht2, hr]
          simp
        · simp only [List.length_cons]
          omega
        · simp only [retry_loop]
          rw [if_neg hs, htot2, hr]
          simp only [List.length_append, List.length_cons, List.length_nil]
          omega

/-- Claim C2: within a retry session with budget `max_retries`, each loop
iteration — whether the worker invocation threw, the artifact was missing, or
validation ran — writes exactly one AttemptRecord (first conjunct, over every
`WorkerBehavior`), and the loop appends at most `max_retries` records, i.e.
performs at most `max_retries` worker invocations; the reported
`total_attempts` equals the final history length. -/
theorem retry_bounded_one_record_per_iteration :
    (∀ (child : RecursiveAgent) (pf : Option String) (task : String)
        (b : WorkerBehavior) (h : List AttemptRecord),
      ∃ r, (run_managed_agent child pf task b h).2 = h ++ [r]) ∧
    (∀ (child : RecursiveAgent) (pf : Option String) (rev : String)
        (behaviors : Nat → WorkerBehavior) (max_retries : Nat)
        (h : List AttemptRecord),
      ∃ t, (retry_child_agent child pf rev behaviors max_retries h).2
          = h ++ t ∧
        t.length ≤ max_retries ∧
        (retry_child_agent child pf rev behaviors max_retries h).1.total_attempts
          = h.length + t.length) := by
  constructor
  · intro child pf task b h
    obtain ⟨r, hr, _⟩ := run_managed_agent_appends child pf task b h
    exact ⟨r, hr⟩
  · intro child pf rev behaviors maxr h
    exact retry_loop_spec child pf rev behaviors maxr 1 h

/-- Helper: `_record_attempt` preserves consecutive numbering. -/
theorem _record_attempt_wellNumbered (h : List AttemptRecord)
    (p : String) (c t : Option String) (s : Bool) (e : String)
    (hw : WellNumbered h) : WellNumbered (_record_attempt h p c t s e) := by
  unfold WellNumbered attemptNumbers at hw ⊢
  simp only [_record_attempt, List.map_append, List.map_cons, List.map_nil,
    List.length_append, List.length_cons, List.length_nil]
  rw [hw]
  have : [h.length + 1] = List.range' (1 + h.length) 1 := by
    simp [List.range'_succ, Nat.add_comm]
  rw [this, List.range'_append_1]
  congr 1
  omega

/-- Helper: `run_managed_agent` preserves consecutive numbering. -/
theorem run_managed_agent_wellNumbered (child : RecursiveAgent)
    (pf : Option String) (task : String) (b : WorkerBehavior)
    (h : List AttemptRecord) (hw : WellNumbered h) :
    WellNumbered (run_managed_agent child pf task b h).2 := by
  cases b with
  | throws msg =>
      simp only [run_managed_agent]
      exact _record_attempt_wellNumbered h _ _ _ _ _ hw
  | completes sol tenv el =>
      cases sol with
      | none =>
          simp only [run_managed_agent]
          exact _record_attempt_wellNumbered h _ _ _ _ _ hw
      | some code =>
          simp only [run_managed_agent]
          exact _record_attempt_wellNumbered h _ _ _ _ _ hw

/-- Helper: the retry loop preserves consecutive numbering. -/
theorem retry_loop_wellNumbered (child : RecursiveAgent) (pf : Option String)
    (rev : String) (behaviors : Nat → WorkerBehavior) :
    ∀ (fuel an : Nat) (h : List AttemptRecord), WellNumbered h →
      WellNumbered (retry_loop child pf rev behaviors an fuel h).2 := by
  intro fuel
  induction fuel with
  | zero =>
      intro an h hw
      simpa [retry_loop] using hw
  | succ f ih =>
      intro an h hw
      have hstep := run_managed_agent_wellNumbered child pf
        (build_augmented_task (pf.map pystrip) h rev) (behaviors an) h hw
      by_cases hs : (run_managed_agent child pf
          (build_augmented_task (pf.map pystrip) h rev) (behaviors an) h).1
        = true
      · simpa [retry_loop, hs] using hstep
      · simp only [retry_loop, Bool.not_eq_true] at *
        rw [if_neg (by simp [hs])]
        exact ih (an + 1) _ hstep

/-- Claim C9: attempt records are append-only with `attempt_number` equal to
the previous count plus one; consecutive numbering is preserved by every
recording path and by whole retry sessions; and a consecutively numbered
history is strictly increasing in `attempt_number` (so no reordering or
out-of-order insertion occurs). -/
theorem attempt_numbers_strictly_increasing :
    (∀ (h : List AttemptRecord) (p : String) (c t : Option String) (s : Bool)
        (e : String),
      ∃ r, _record_attempt h p c t s e = h ++ [r] ∧
        r.attempt_number = h.length + 1) ∧
    (∀ (h : List AttemptRecord) (p : String) (c t : Option String) (s : Bool)
        (e : String), WellNumbered h →
      WellNumbered (_record_attempt h p c t s e)) ∧
    (∀ (child : RecursiveAgent) (pf : Option String) (rev : String)
        (behaviors : Nat → WorkerBehavior) (maxr : Nat)
        (h : List AttemptRecord), WellNumbered h →
      WellNumbered (retry_child_agent child pf rev behaviors maxr h).2) ∧
    (∀ h : List AttemptRecord, WellNumbered h →
      (attemptNumbers h).Pairwise (· < ·)) := by
  refine ⟨?_, ?_, ?_, ?_⟩
  · intro h p c t s e
    exact ⟨_, rfl, rfl⟩
  · intro h p c t s e hw
    exact _record_attempt_wellNumbered h p c t s e hw
  · intro child pf rev behaviors maxr h hw
    exact retry_loop_wellNumbered child pf rev behaviors maxr 1 h hw
  · intro h hw
    rw [hw]
    exact List.pairwise_lt_range' 1 h.length

/-- Claim C9 witness: a concrete two-step recording session, plus a whole
retry session, keep consecutive, strictly increasing numbering. -/
theorem attempt_numbers_strictly_increasing_witness :
    WellNumbered
      (_record_attempt (_record_attempt [] "p" none none false "")
        "q" none none true "") ∧
    (attemptNumbers
      (_record_attempt (_record_attempt [] "p" none none false "")
        "q" none none true "")).Pairwise (· < ·) ∧
    WellNumbered
      (retry_child_agent
        (RecursiveAgent.init "root" 300 DEFAULT_MAX_RETRIES 0 5) none "fix"
        (fun _ => WorkerBehavior.throws "x") 2 []).2 := by
  have h1 : WellNumbered (_record_attempt [] "p" none none false "") :=
    attempt_numbers_strictly_increasing.2.1 [] "p" none none false "" rfl
  have h2 := attempt_numbers_strictly_increasing.2.1
    (_record_attempt [] "p" none none false "") "q" none none true "" h1
  exact ⟨h2, attempt_numbers_strictly_increasing.2.2.2 _ h2,
    attempt_numbers_strictly_increasing.2.2.1
      (RecursiveAgent.init "root" 300 DEFAULT_MAX_RETRIES 0 5) none "fix"
      (fun _ => WorkerBehavior.throws "x") 2 [] rfl⟩

/-! ## Lemmas about stripping and reading requirement lines -/

/-- Helper: a stripped character list has no leading whitespace left. -/
theorem dropWhile_stripChars (l : List Char) :
    (stripChars l).dropWhile isPySpace = stripChars l := by
  unfold stripChars
  have hpre := List.rdropWhile_prefix isPySpace (l.dropWhile isPySpace)
  obtain ⟨t, ht⟩ := hpre
  rcases hE : (l.dropWhile isPySpace).rdropWhile isPySpace with _ | ⟨a, r2⟩
  · rfl
  · rw [hE] at ht
    have hm : l.dropWhile isPySpace = a :: (r2 ++ t) := by
      rw [← ht]; simp
    have hlen : 0 < (l.dropWhile isPySpace).length := by
      rw [hm]; simp
    have ha : isPySpace a = false := by
      have hh := List.head_dropWhile_not isPySpace l (by rw [hm]; simp)
      simp only [hm, List.head_cons] at hh
      exact hh
    rw [List.dropWhile_cons_of_neg (by simp [ha])]

/-- Helper: stripping is idempotent on character lists. -/
theorem stripChars_idem (l : List Char) :
    stripChars (stripChars l) = stripChars l := by
  show ((stripChars l).dropWhile isPySpace).rdropWhile isPySpace = stripChars l
  rw [dropWhile_stripChars l]
  exact List.rdropWhile_idempotent _ _

/-- Helper: Python `strip` is idempotent. -/
theorem pystrip_idem (s : String) : pystrip (pystrip s) = pystrip s :=
  congrArg String.mk (stripChars_idem s.data)

/-- Helper: every line kept by `_read_requirements_file` is already
stripped, non-empty and not a comment. -/
theorem mem_read_requirements {r : String} : ∀ {lines : List String},
    r ∈ _read_requirements_file lines →
    pystrip r = r ∧ r.isEmpty = false ∧ startsWithHash r = false := by
  intro lines
  induction lines with
  | nil =>
      intro h
      simp [_read_requirements_file] at h
  | cons line rest ih =>
      intro h
      simp only [_read_requirements_file] at h
      by_cases hc : ((pystrip line).isEmpty || startsWithHash (pystrip line))
        = true
      · rw [if_pos hc] at h
        exact ih h
      · rw [if_neg hc] at h
        simp only [Bool.or_eq_true, not_or, Bool.not_eq_true] at hc
        rcases List.mem_cons.mp h with h | h
        · subst h
          exact ⟨pystrip_idem line, hc.1, hc.2⟩
        · exact ih h

/-- Helper: reading a file whose lines are all clean requirement tokens
returns them unchanged. -/
theorem read_of_clean : ∀ {lines : List String},
    (∀ r ∈ lines,
      pystrip r = r ∧ r.isEmpty = false ∧ startsWithHash r = false) →
    _read_requirements_file lines = lines := by
  intro lines
  induction lines with
  | nil => intro _; rfl
  | cons line rest ih =>
      intro h
      obtain ⟨h1, h2, h3⟩ := h line (List.mem_cons_self _ _)
      simp only [_read_requirements_file]
      rw [h1, if_neg (by simp [h2, h3]),
        ih fun r hr => h r (List.mem_cons_of_mem _ hr)]

/-! ## Lemmas about first-seen accumulation -/

/-- Helper: membership in an `addUnique` fold. -/
theorem mem_foldl_addUnique (y : String) :
    ∀ (l acc : List String), y ∈ l.foldl addUnique acc ↔ y ∈ acc ∨ y ∈ l := by
  intro l
  induction l with
  | nil =>
      intro acc
      simp
  | cons x xs ih =>
      intro acc
      simp only [List.foldl_cons]
      rw [ih]
      unfold addUnique
      by_cases hx : x ∈ acc
      · rw [if_pos hx]
        constructor
        · rintro (h | h)
          · exact Or.inl h
          · exact Or.inr (List.mem_cons_of_mem _ h)
        · rintro (h | h)
          · exact Or.inl h
          · rcases List.mem_cons.mp h with rfl | h2
            · exact Or.inl hx
            · exact Or.inr h2
      · rw [if_neg hx]
        simp only [List.mem_append, List.mem_singleton, List.mem_cons]
        tauto

/-- Helper: an `addUnique` fold keeps the accumulator duplicate-free. -/
theorem foldl_addUnique_nodup :
    ∀ (l acc : List String), acc.Nodup → (l.foldl addUnique acc).Nodup := by
  intro l
  induction l with
  | nil =>
      intro acc h
      exact h
  | cons x xs ih =>
      intro acc h
      simp only [List.foldl_cons]
      apply ih
      unfold addUnique
      by_cases hx : x ∈ acc
      · rwa [if_pos hx]
      · rw [if_neg hx, List.nodup_append]
        refine ⟨h, by simp, ?_⟩
        intro a ha hax
        rw [List.mem_singleton] at hax
        subst hax
        exact hx ha

/-- Helper: folding elements already present changes nothing. -/
theorem foldl_addUnique_of_subset :
    ∀ (l acc : List String), (∀ x ∈ l, x ∈ acc) → l.foldl addUnique acc = acc := by
  intro l
  induction l with
  | nil =>
      intro acc _
      rfl
  | cons x xs ih =>
      intro acc h
      simp only [List.foldl_cons, addUnique,
        if_pos (h x (List.mem_cons_self _ _))]
      exact ih acc fun y hy => h y (List.mem_cons_of_mem _ hy)

/-- Helper: folding fresh, duplicate-free elements appends them in order. -/
theorem foldl_addUnique_fresh :
    ∀ (l acc : List String), l.Nodup → (∀ x ∈ l, x ∉ acc) →
      l.foldl addUnique acc = acc ++ l := by
  intro l
  induction l with
  | nil =>
      intro acc _ _
      simp
  | cons x xs ih =>
      intro acc hnd hfresh
      have hx : x ∉ acc := hfresh x (List.mem_cons_self _ _)
      simp only [List.foldl_cons, addUnique, if_neg hx]
      rw [ih (acc ++ [x]) (List.Nodup.of_cons hnd)]
      · simp
      · intro y hy
        simp only [List.mem_append, List.mem_singleton, not_or]
        exact ⟨hfresh y (List.mem_cons_of_mem _ hy),
          fun hyx => (List.nodup_cons.mp hnd).1 (hyx ▸ hy)⟩

/-- Helper: a duplicate-free list folded into an empty accumulator is
returned unchanged. -/
theorem foldl_addUnique_nil (l : List String) (h : l.Nodup) :
    l.foldl addUnique [] = l := by
  simpa using foldl_addUnique_fresh l [] h (by simp)

/-! ## Lemmas about the merge result -/

/-- Helper: the merge returns `mergedList`. -/
theorem merge_fst (t : AgentTree) (b : Bool) :
    (merge_child_requirements t b).1 = mergedList t b := by
  simp only [merge_child_requirements, mergedList]
  split <;> split <;> rfl

/-- Helper: the merge writes `mergedList` back to the node's file only when
non-empty. -/
theorem merge_snd (t : AgentTree) (b : Bool) :
    (merge_child_requirements t b).2
      = if (mergedList t b).isEmpty then t
        else AgentTree.mk (mergedList t b) t.children := by
  simp only [merge_child_requirements, mergedList]
  split <;> split <;> rfl

/-- Helper: membership in the child-collection fold. -/
theorem mem_collect_foldl :
    ∀ (cs : List AgentTree) (acc : List String) (y : String),
      y ∈ cs.foldl
        (fun acc c => (_read_requirements_file c.reqFile).foldl addUnique acc)
        acc →
      y ∈ acc ∨ ∃ c ∈ cs, y ∈ _read_requirements_file c.reqFile := by
  intro cs
  induction cs with
  | nil =>
      intro acc y h
      exact Or.inl h
  | cons c cs ih =>
      intro acc y h
      simp only [List.foldl_cons] at h
      rcases ih _ y h with h2 | ⟨c2, hc2, hy⟩
      · rcases (mem_foldl_addUnique y _ acc).mp h2 with h3 | h3
        · exact Or.inl h3
        · exact Or.inr ⟨c, List.mem_cons_self _ _, h3⟩
      · exact Or.inr ⟨c2, List.mem_cons_of_mem _ hc2, hy⟩

/-- Helper: every merged entry is a clean requirement token (it came from
some `_read_requirements_file` read). -/
theorem mergedList_clean {t : AgentTree} {b : Bool} {y : String}
    (h : y ∈ mergedList t b) :
    pystrip y = y ∧ y.isEmpty = false ∧ startsWithHash y = false := by
  unfold mergedList at h
  rcases (mem_foldl_addUnique y _ _).mp h with hS | hC
  · cases b with
    | false => simp at hS
    | true =>
        simp only [if_pos] at hS
        rcases (mem_foldl_addUnique y _ _).mp hS with h0 | hR
        · simp at h0
        · exact mem_read_requirements hR
  · rcases mem_collect_foldl t.children [] y hC with h0 | ⟨c, _, hy⟩
    · simp at h0
    · exact mem_read_requirements hy

/-- Helper: the merged list is duplicate-free. -/
theorem mergedList_nodup (t : AgentTree) (b : Bool) :
    (mergedList t b).Nodup := by
  unfold mergedList
  apply foldl_addUnique_nodup
  cases b with
  | false => simp
  | true =>
      simp only [if_pos]
      exact foldl_addUnique_nodup _ [] List.nodup_nil

/-- Claim C8: merging a node's subtree requirements twice with unchanged
child inputs yields the same ordered list as merging once — even though the
first merge rewrites the node's own `requirements.txt`, re-reading the merged
file and folding the (unchanged) child requirements back in reproduces the
same list. -/
theorem merge_child_requirements_idempotent (t : AgentTree) (incl : Bool) :
    (merge_child_requirements (merge_child_requirements t incl).2 incl).1
      = (merge_child_requirements t incl).1 := by
  by_cases hM : (mergedList t incl).isEmpty = true
  · have h2 : (merge_child_requirements t incl).2 = t := by
      rw [merge_snd, if_pos hM]
    rw [h2]
  · have h2 : (merge_child_requirements t incl).2
        = AgentTree.mk (mergedList t incl) t.children := by
      rw [merge_snd, if_neg hM]
    rw [merge_fst, merge_fst, h2]
    show mergedList (AgentTree.mk (mergedList t incl) t.children) incl
      = mergedList t incl
    have hcoll : collect_child_requirements
        (AgentTree.mk (mergedList t incl) t.children)
        = collect_child_requirements t := rfl
    have hread : _read_requirements_file
        (AgentTree.reqFile (AgentTree.mk (mergedList t incl) t.children))
        = mergedList t incl :=
      read_of_clean fun _ hr => mergedList_clean hr
    rw [show mergedList (AgentTree.mk (mergedList t incl) t.children) incl
        = (collect_child_requirements
            (AgentTree.mk (mergedList t incl) t.children)).foldl addUnique
          (if incl then (_read_requirements_file
            (AgentTree.reqFile
              (AgentTree.mk (mergedList t incl) t.children))).foldl addUnique []
           else []) from rfl]
    rw [hcoll, hread]
    cases incl with
    | false =>
        show (collect_child_requirements t).foldl addUnique [] = mergedList t false
        rfl
    | true =>
        have hS2 : (if (true : Bool) = true
            then (mergedList t true).foldl addUnique []
            else ([] : List String)) = mergedList t true := by
          rw [if_pos rfl]
          exact foldl_addUnique_nil _ (mergedList_nodup t true)
        rw [hS2]
        exact foldl_addUnique_of_subset _ _ fun y hy =>
          (mem_foldl_addUnique y _ _).mpr (Or.inr hy)

/-! ## First-seen deduplication versus the accumulation loops -/

/-- Helper: `firstSeen` only keeps elements of its input. -/
theorem mem_firstSeen :
    ∀ (n : Nat) (l : List String), l.length ≤ n →
      ∀ y ∈ firstSeen l, y ∈ l := by
  intro n
  induction n with
  | zero =>
      intro l hl y hy
      rw [Nat.le_zero, List.length_eq_zero] at hl
      subst hl
      simp [firstSeen] at hy
  | succ n ih =>
      intro l hl y hy
      cases l with
      | nil => simp [firstSeen] at hy
      | cons x xs =>
          simp only [firstSeen] at hy
          rcases List.mem_cons.mp hy with rfl | hy2
          · exact List.mem_cons_self _ _
          · have hlen : (xs.filter fun y => decide (y ≠ x)).length ≤ n := by
              have := List.length_filter_le (fun y => decide (y ≠ x)) xs
              simp only [List.length_cons] at hl
              omega
            have := ih _ hlen y hy2
            exact List.mem_cons_of_mem _ (List.mem_filter.mp this).1

/-- Helper: the `addUnique` fold is the accumulator followed by the
first-seen deduplication of the unseen input elements. -/
theorem foldl_addUnique_firstSeen :
    ∀ (l acc : List String),
      l.foldl addUnique acc
        = acc ++ firstSeen (l.filter fun y => decide (y ∉ acc)) := by
  intro l
  induction l with
  | nil =>
      intro acc
      simp [firstSeen]
  | cons x xs ih =>
      intro acc
      simp only [List.foldl_cons]
      by_cases hx : x ∈ acc
      · rw [show addUnique acc x = acc from if_pos hx, ih,
          List.filter_cons_of_neg (by simp [hx])]
      · rw [show addUnique acc x = acc ++ [x] from if_neg hx, ih,
          List.filter_cons_of_pos (by simp [hx])]
        simp only [firstSeen, List.append_assoc, List.singleton_append]
        congr 2
        rw [List.filter_filter]
        congr 1
        apply List.filter_congr
        intro a _
        by_cases hax : a = x
        · subst hax
          simp
        · simp [hax, List.mem_append]

/-- Helper: deduplicating before filtering does not change the deduplicated
filtered result. -/
theorem firstSeen_filter (p : String → Bool) :
    ∀ (n : Nat) (l : List String), l.length ≤ n →
      firstSeen ((firstSeen l).filter p) = firstSeen (l.filter p) := by
  intro n
  induction n with
  | zero =>
      intro l hl
      rw [Nat.le_zero, List.length_eq_zero] at hl
      subst hl
      simp [firstSeen]
  | succ n ih =>
      intro l hl
      cases l with
      | nil => simp [firstSeen]
      | cons x xs =>
          have hlen : (xs.filter fun y => decide (y ≠ x)).length ≤ n := by
            have := List.length_filter_le (fun y => decide (y ≠ x)) xs
            simp only [List.length_cons] at hl
            omega
          simp only [firstSeen]
          by_cases hp : p x = true
          · rw [List.filter_cons_of_pos hp, List.filter_cons_of_pos hp]
            simp only [firstSeen]
            congr 1
            have hinner : ((firstSeen (xs.filter fun y => decide (y ≠ x))).filter
                  p).filter (fun y => decide (y ≠ x))
                = (firstSeen (xs.filter fun y => decide (y ≠ x))).filter p := by
              rw [List.filter_filter]
              apply List.filter_congr
              intro a ha
              have hax : decide (a ≠ x) = true :=
                (List.mem_filter.mp (mem_firstSeen n _ hlen a ha)).2
              simp [hax]
            rw [hinner, ih _ hlen, List.filter_filter, List.filter_filter]
            congr 1
            apply List.filter_congr
            intro a _
            exact Bool.and_comm _ _
          · rw [List.filter_cons_of_neg (by simp [hp]),
              List.filter_cons_of_neg (by simp [hp]), ih _ hlen,
              List.filter_filter]
            congr 1
            apply List.filter_congr
            intro a _
            by_cases hax : a = x
            · subst hax
              simp [hp]
            · simp [hax]

/-- Helper: folding into an empty accumulator is first-seen deduplication. -/
theorem foldl_addUnique_nil_eq_firstSeen (l : List String) :
    l.foldl addUnique [] = firstSeen l := by
  rw [foldl_addUnique_firstSeen l [], List.nil_append]
  congr 1
  exact List.filter_eq_self.mpr fun a _ => by simp

/-- Helper: pre-deduplicating the folded list does not change the fold. -/
theorem foldl_addUnique_absorb (l acc : List String) :
    (l.foldl addUnique []).foldl addUnique acc = l.foldl addUnique acc := by
  rw [foldl_addUnique_nil_eq_firstSeen l,
    foldl_addUnique_firstSeen (firstSeen l) acc,
    foldl_addUnique_firstSeen l acc,
    firstSeen_filter _ l.length l (le_refl _)]

/-- Helper: the nested collection loop folds the concatenation of the
children's requirement reads. -/
theorem collect_foldl_flat :
    ∀ (cs : List AgentTree) (acc : List String),
      cs.foldl
        (fun acc c => (_read_requirements_file c.reqFile).foldl addUnique acc)
        acc
      = (cs.flatMap fun c => _read_requirements_file c.reqFile).foldl
          addUnique acc := by
  intro cs
  induction cs with
  | nil =>
      intro acc
      simp
  | cons c cs ih =>
      intro acc
      simp only [List.foldl_cons, List.flatMap_cons, List.foldl_append]
      exact ih _

/-- Claim C7 counterexample: on a node whose only child has an empty
dependency list while the grandchild requires `numpy`, the source merge
returns the empty list — it never reads the grandchild's file — whereas the
spec's descendant traversal (`mergeSubtreeSpec`) returns `["numpy"]`. -/
theorem merge_misses_grandchildren_counterexample :
    (merge_child_requirements
        (AgentTree.mk [] [AgentTree.mk [] [AgentTree.mk ["numpy"] []]])
        true).1 = [] ∧
    mergeSubtreeSpec
        (AgentTree.mk [] [AgentTree.mk [] [AgentTree.mk ["numpy"] []]])
        true = ["numpy"] := by
  constructor
  · rfl
  · show firstSeen ["numpy"] = ["numpy"]
    simp [firstSeen]

/-- Claim C7 (amended): the merge reads the dependency-list file of each
**immediate child directory only** (one requirement per non-empty,
non-comment stripped line), in directory-iteration order, deduplicates by
exact string match in first-seen order, and prepends the node's own existing
list first when `include_self` is true; descendants deeper than one level are
not visited.  The result is exactly the first-seen deduplication of the
node's own cleaned lines (when `include_self`) followed by the immediate
children's cleaned lines, and is duplicate-free. -/
theorem merge_reads_direct_children_only (t : AgentTree) (incl : Bool) :
    (merge_child_requirements t incl).1
      = firstSeen ((if incl then _read_requirements_file t.reqFile else [])
          ++ t.children.flatMap fun c => _read_requirements_file c.reqFile) ∧
    (merge_child_requirements t incl).1.Nodup := by
  refine ⟨?_, by rw [merge_fst]; exact mergedList_nodup t incl⟩
  rw [merge_fst]
  show (collect_child_requirements t).foldl addUnique
      (if incl then (_read_requirements_file t.reqFile).foldl addUnique []
       else []) = _
  unfold collect_child_requirements
  rw [collect_foldl_flat, foldl_addUnique_absorb]
  cases incl with
  | false =>
      rw [if_neg (by simp), if_neg (by simp), foldl_addUnique_nil_eq_firstSeen]
      simp
  | true =>
      rw [if_pos rfl, if_pos rfl, ← List.foldl_append,
        foldl_addUnique_nil_eq_firstSeen]

end RecursiveCoder
